import Mathlib

/-!
Verification of the Telegram scraper pipeline (tools.py, fast_telegram_scraper.py,
config.py).  Python strings are modelled as lists of Unicode codepoints
(`List Nat`); the helper `S` converts a Lean string literal to that form.
-/

/-- Codepoints of a string literal. -/
def S (s : String) : List Nat := s.toList.map Char.toNat

/-- Python `str.lower` restricted to the alphabets used by the lexicon:
ASCII `A`-`Z` and Cyrillic `А`-`Я`, `Ё`. -/
def pyToLower (c : Nat) : Nat :=
  if 65 ≤ c ∧ c ≤ 90 then c + 32
  else if 1040 ≤ c ∧ c ≤ 1071 then c + 32
  else if c = 1025 then 1105
  else c

theorem pyToLower_idem (c : Nat) : pyToLower (pyToLower c) = pyToLower c := by
  unfold pyToLower
  split_ifs <;> omega

theorem map_pyToLower_idem (l : List Nat) :
    (l.map pyToLower).map pyToLower = l.map pyToLower := by
  induction l with
  | nil => rfl
  | cons c cs ih => simp [List.map_cons, ih, pyToLower_idem]

/-- The lexicon `GamingKeywords.KEYWORDS` from config.py, in source order. -/
def KEYWORDS : List (List Nat) :=
  [S "igaming", S "casino", S "bet", S "betting", S "poker", S "slots",
   S "gambling", S "game", S "games", S "jackpot", S "lottery", S "roulette",
   S "payments", S "payment",
   S "crypto", S "bitcoin", S "trading", S "forex",
   S "affiliate", S "партнер",
   S "казино", S "ставки", S "игры", S "азарт", S "криптовалюта",
   S "трейдинг", S "партнёрка", S "реферал", S "гемблинг", S "букмекер",
   S "bookmaker", S "спорт", S "sport", S "прогноз", S "прогнозы",
   S "капер", S "capper", S "tipster", S "бинанс", S "binance", S "сигнал",
   S "spin", S "spinz", S "vegas", S "roll", S "highroll", S "betwin",
   S "betwinner", S "melbet", S "1xbet", S "1xcasino",
   S "cpa", S "revshare", S "traf", S "траф", S "arbitrage", S "арбитраж",
   S "sportsbook", S "offers", S "офферы", S "офера", S "manager",
   S "менеджер", S "leads", S "конверт", S "conversion", S "mediabuy",
   S "медиабай", S "webmaster", S "вебмастер", S "network", S "сеть",
   S "hybrid", S "гибрид", S "landing", S "лендинг", S "investment",
   S "инвест", S "live", S "deposit", S "депозит", S "bingo", S "dice",
   S "кости", S "cards", S "карты", S "wheel", S "reel", S "bizdev",
   S "business development", S "geo", S "гео"]

/-- Python `pat in s` for strings: contiguous-substring containment. -/
def isSubstring (pat : List Nat) : List Nat → Bool
  | [] => pat.isEmpty
  | c :: cs => pat.isPrefixOf (c :: cs) || isSubstring pat cs

/-- The keywords found in a message text by `TelegramTools.find_message_keywords`:
substring containment of each lexicon term in the lowercased text, in lexicon
order. -/
def foundKeywords (t : List Nat) : List (List Nat) :=
  KEYWORDS.filter (fun kw => isSubstring kw (t.map pyToLower))

/-- The matcher `TelegramTools.find_message_keywords` (tools.py): empty text yields the empty
string; otherwise the found keywords, comma-joined (empty string when none). -/
def find_message_keywords (t : List Nat) : List Nat :=
  if t = [] then []
  else
    let found := foundKeywords t
    if found ≠ [] then List.intercalate (S ", ") found else []

/-- A Telegram sender as the pipeline inspects it: id, username, name parts,
the `bot` flag, and whether its class name marks it as a Channel/Chat. -/
structure Sender where
  id : Nat
  username : List Nat
  first_name : List Nat
  last_name : List Nat
  bot : Bool
  isChannelOrChat : Bool
deriving DecidableEq, Repr

/-- A message as ingested: platform id, UTC timestamp (seconds), raw text,
optional sender. -/
structure Message where
  id : Nat
  date : Int
  text : List Nat
  sender : Option Sender
deriving DecidableEq, Repr

/-- The message-collection loop of `fetch_group_messages` (tools.py lines
278-297, fast_telegram_scraper.py lines 379-391): iterate the source; break at
the first message dated strictly before `start_date`; append messages dated at
most `end_date`; otherwise skip and continue. -/
def fetch_loop (start_date end_date : Int) : List Message → List Message
  | [] => []
  | m :: ms =>
    if m.date < start_date then []
    else if m.date ≤ end_date then m :: fetch_loop start_date end_date ms
    else fetch_loop start_date end_date ms

/-- The period units offered by `get_period_input`. -/
inductive PeriodType
  | days
  | weeks
  | months
deriving DecidableEq, Repr

/-- Date-range computation of `fetch_group_messages`: `end = now(UTC)` and
`start = end - timedelta(...)`, where a month is 30 days.  Times in seconds. -/
def resolve_window (now : Int) (p : PeriodType) (q : Nat) : Int × Int :=
  match p with
  | .days => (now - 86400 * q, now)
  | .weeks => (now - 86400 * (7 * q), now)
  | .months => (now - 86400 * (30 * q), now)

/-- Worker for `pyReplace`; the fuel is an upper bound on the input length,
consumed one unit per examined character. -/
def pyReplaceGo (pat rep : List Nat) : Nat → List Nat → List Nat
  | _, [] => []
  | 0, rest => rest
  | fuel + 1, c :: cs =>
    if pat ≠ [] ∧ pat.isPrefixOf (c :: cs) then
      rep ++ pyReplaceGo pat rep fuel (cs.drop (pat.length - 1))
    else
      c :: pyReplaceGo pat rep fuel cs

/-- Python `str.replace(pat, rep)`: replace non-overlapping occurrences
left-to-right (the `pat = []` case is unused by the code and left as the
identity). -/
def pyReplace (pat rep : List Nat) (s : List Nat) : List Nat :=
  pyReplaceGo pat rep s.length s

/-- Text normalization in `TelegramTools.fetch_group_messages` (tools.py lines
411-414): `message_text.replace("\\n", " ").replace("\\r", " ")` — note the
patterns are the literal two-character sequences backslash-n and backslash-r. -/
def normalize_text_tools (t : List Nat) : List Nat :=
  pyReplace (S "\\r") (S " ") (pyReplace (S "\\n") (S " ") t)

/-- Text normalization in `FastTelegramScraper.fetch_group_messages`
(fast_telegram_scraper.py lines 493-496): replaces actual newline and
carriage-return characters with spaces. -/
def normalize_text_fast (t : List Nat) : List Nat :=
  pyReplace (S "\r") (S " ") (pyReplace (S "\n") (S " ") t)

/-- Sender enrichment record built by the user-info lookups. -/
structure UserInfo where
  bio : List Nat
  gaming_keywords : List Nat
  common_groups : List Nat
deriving DecidableEq, Repr

/-- Remote-side behaviour visible to the lookups: dialog titles of the
caller's groups (`none` models a raised error), the `about` text returned by
`GetFullUserRequest` per user id (`none` models an error or a missing bio),
and the two display bounds from `Settings`. -/
structure RemoteEnv where
  dialogs : Option (List (List Nat))
  about : Nat → Option (List Nat)
  max_cache_groups : Nat
  max_common_groups : Nat

/-- The common-groups cache fill inside `get_user_fast_info`: only when a
client is present and the per-run cache is still unset; a dialog-listing
error degrades to an empty cached list. -/
def fill_common_groups (env : RemoteEnv) (hasClient : Bool)
    (cg : Option (List (List Nat))) : Option (List (List Nat)) :=
  if hasClient ∧ cg = none then
    some ((env.dialogs.getD []).take env.max_cache_groups)
  else cg

/-- The lookup `TelegramTools.get_user_fast_info` (tools.py lines 92-135): classify the
sender (channel/chat → bio `CHANNEL`, bot → bio `BOT`), otherwise fill the
per-run common-groups cache and surface a bounded join of it.  Returns the
enrichment and the updated per-run cache. -/
def get_user_fast_info (env : RemoteEnv) (hasClient : Bool)
    (cg : Option (List (List Nat))) (u : Sender) :
    UserInfo × Option (List (List Nat)) :=
  if u.isChannelOrChat then
    (⟨S "CHANNEL", [], []⟩, cg)
  else if u.bot then
    (⟨S "BOT", [], []⟩, cg)
  else
    let cg' := fill_common_groups env hasClient cg
    let commons :=
      match cg' with
      | some l =>
        if l ≠ [] then List.intercalate (S "; ") (l.take env.max_common_groups)
        else []
      | none => []
    (⟨[], [], commons⟩, cg')

/-- The lookup `TelegramTools.get_user_detailed_info` (tools.py lines 137-159): start from
the fast info; when a client is present and the bio is neither `BOT` nor
`CHANNEL`, issue one `GetFullUserRequest` and overwrite the bio with a
non-empty `about`; errors are swallowed. -/
def get_user_detailed_info (env : RemoteEnv) (hasClient : Bool)
    (cg : Option (List (List Nat))) (u : Sender) :
    UserInfo × Option (List (List Nat)) :=
  let (info, cg') := get_user_fast_info env hasClient cg u
  if hasClient ∧ info.bio ≠ S "BOT" ∧ info.bio ≠ S "CHANNEL" then
    match env.about u.id with
    | some b => if b ≠ [] then ({ info with bio := b }, cg') else (info, cg')
    | none => (info, cg')
  else (info, cg')

/-- One output record of the tools.py message export (the per-run constant
`group` / `group_id` columns are omitted). -/
structure OutRow where
  message_id : Nat
  date : Int
  sender_id : Option Nat
  sender_username : List Nat
  sender_name : List Nat
  message_text : List Nat
  sender_bio : List Nat
  message_gaming_keywords : List Nat
  sender_common_groups : List Nat
deriving DecidableEq, Repr

/-- The `@`-prefix fixup applied to non-empty usernames lacking it. -/
def withAt (u : List Nat) : List Nat :=
  if u ≠ [] ∧ ¬ (S "@").isPrefixOf u then S "@" ++ u else u

/-- The row written for one message by `TelegramTools.fetch_group_messages`
(tools.py lines 331-433): sender fields default to empty when the message has
no sender; a non-empty username gets the `@` prefix; the text is normalized and
the message-level keywords are computed from the normalized text. -/
def mkRow (m : Message) (info : UserInfo) : OutRow :=
  let text := normalize_text_tools m.text
  { message_id := m.id
    date := m.date
    sender_id := m.sender.map (·.id)
    sender_username :=
      match m.sender with
      | none => []
      | some s => if s.username ≠ [] then withAt s.username else []
    sender_name :=
      match m.sender with
      | none => []
      | some s =>
        List.intercalate (S " ") ([s.first_name, s.last_name].filter (· ≠ []))
    message_text := text
    sender_bio := match m.sender with | none => [] | some _ => info.bio
    message_gaming_keywords := find_message_keywords text
    sender_common_groups :=
      match m.sender with | none => [] | some _ => info.common_groups }

/-- Pipeline state threaded through the write loop of
`TelegramTools.fetch_group_messages`: the per-run sender cache (insertion
order kept), the per-run common-groups cache, the log of sender ids for which
a detailed-profile remote request was issued, and the rows written so far. -/
structure PipeState where
  users_cache : List (Nat × UserInfo)
  cg_cache : Option (List (List Nat))
  detailed_calls : List Nat
  rows : List OutRow

/-- Initial pipeline state: everything empty, common-groups cache unset. -/
def initState : PipeState := ⟨[], none, [], []⟩

/-- Association-list lookup mirroring `sender_id in users_cache`. -/
def lookupCache (sid : Nat) : List (Nat × UserInfo) → Option UserInfo
  | [] => none
  | (k, v) :: rest => if k = sid then some v else lookupCache sid rest

/-- One iteration of the write loop (tools.py lines 331-433): resolve the
sender enrichment cache-first (fast lookup in fast mode or for bots/channels,
detailed lookup otherwise — the latter logged as a remote call), memoize it,
and append the output row. -/
def processMessage (fast : Bool) (env : RemoteEnv) (st : PipeState)
    (m : Message) : PipeState :=
  match m.sender with
  | none => { st with rows := st.rows ++ [mkRow m ⟨[], [], []⟩] }
  | some u =>
    match lookupCache u.id st.users_cache with
    | some info => { st with rows := st.rows ++ [mkRow m info] }
    | none =>
      if fast ∨ u.bot ∨ u.isChannelOrChat then
        let r := get_user_fast_info env true st.cg_cache u
        { st with
          users_cache := st.users_cache ++ [(u.id, r.1)]
          cg_cache := r.2
          rows := st.rows ++ [mkRow m r.1] }
      else
        let r := get_user_detailed_info env true st.cg_cache u
        { st with
          users_cache := st.users_cache ++ [(u.id, r.1)]
          cg_cache := r.2
          detailed_calls := st.detailed_calls ++ [u.id]
          rows := st.rows ++ [mkRow m r.1] }

/-- The whole write loop over a list of fetched messages. -/
def runPipeline (fast : Bool) (env : RemoteEnv) (msgs : List Message) :
    PipeState :=
  msgs.foldl (processMessage fast env) initState

/-- One persisted CSV record as read back by `process_csv_to_json`. -/
structure CsvRow where
  message_id : List Nat
  date : List Nat
  sender_id : List Nat
  sender_username : List Nat
  sender_name : List Nat
  message_text : List Nat
  group : List Nat
  group_id : List Nat
  sender_bio : List Nat
  message_gaming_keywords : List Nat
  sender_common_groups : List Nat
deriving DecidableEq, Repr

/-- One message sub-record of a sender aggregate. -/
structure MessageData where
  message_id : List Nat
  date : List Nat
  message_text : List Nat
  message_gaming_keywords : List Nat
deriving DecidableEq, Repr

/-- One sender aggregate built by `process_csv_to_json`. -/
structure UserData where
  sender_id : List Nat
  sender_username : List Nat
  sender_name : List Nat
  sender_bio : List Nat
  sender_common_groups : List Nat
  group : List Nat
  group_id : List Nat
  messages : List MessageData
deriving DecidableEq, Repr

/-- Lookup in the insertion-ordered sender map (Python dict semantics). -/
def lookupUser (sid : List Nat) : List (List Nat × UserData) → Option UserData
  | [] => none
  | (k, v) :: rest => if k = sid then some v else lookupUser sid rest

/-- The sender-level seed built from the first record of a sender (tools.py
lines 458-475), including the `@`-prefix fixup on the username. -/
def seedUser (r : CsvRow) : UserData :=
  { sender_id := r.sender_id
    sender_username := withAt r.sender_username
    sender_name := r.sender_name
    sender_bio := r.sender_bio
    sender_common_groups := r.sender_common_groups
    group := r.group
    group_id := r.group_id
    messages := [] }

/-- The message sub-record appended for every non-skipped CSV record
(tools.py lines 477-487). -/
def rowMessage (r : CsvRow) : MessageData :=
  ⟨r.message_id, r.date, r.message_text, r.message_gaming_keywords⟩

/-- Append a message sub-record to the aggregate stored under `sid`. -/
def appendMsg (sid : List Nat) (m : MessageData) :
    List (List Nat × UserData) → List (List Nat × UserData)
  | [] => []
  | (k, v) :: rest =>
    if k = sid then (k, { v with messages := v.messages ++ [m] }) :: rest
    else (k, v) :: appendMsg sid m rest

/-- Processing of one CSV record by `process_csv_to_json` (tools.py lines
452-487): skip records with an empty sender id, seed the aggregate on the
first occurrence, then append one message sub-record. -/
def processRow (acc : List (List Nat × UserData)) (r : CsvRow) :
    List (List Nat × UserData) :=
  if r.sender_id = [] then acc
  else
    let acc' :=
      if (lookupUser r.sender_id acc).isSome then acc
      else acc ++ [(r.sender_id, seedUser r)]
    appendMsg r.sender_id (rowMessage r) acc'

/-- The aggregator `TelegramTools.process_csv_to_json` (tools.py lines 438-496) over the list
of persisted records. -/
def process_csv_to_json (rows : List CsvRow) : List (List Nat × UserData) :=
  rows.foldl processRow []

/-- Outcome of one invite attempt in `add_users_to_group`
(fast_telegram_scraper.py lines 590-616). -/
inductive AddOutcome
  | ok
  | peerFlood
  | privacyRestricted
  | floodWait (s : Nat)
  | otherError
deriving DecidableEq, Repr

/-- Observable event of the bulk-add loop: an invite attempt for the user at a
list position, or a sleep for a number of seconds. -/
inductive AddEvent
  | attempted (i : Nat)
  | slept (s : Nat)
deriving DecidableEq, Repr

/-- The bulk-add loop of `FastTelegramScraper.add_users_to_group`: each user in
turn is attempted; success sleeps 60 seconds and continues; peer-flood breaks
out of the loop; privacy-restricted skips the current target; flood-wait
sleeps for the error-specified seconds and continues; any other error is
logged and processing continues. -/
def addUsersLoop (i : Nat) : List AddOutcome → List AddEvent
  | [] => []
  | o :: rest =>
    AddEvent.attempted i ::
      match o with
      | .ok => AddEvent.slept 60 :: addUsersLoop (i + 1) rest
      | .peerFlood => []
      | .privacyRestricted => addUsersLoop (i + 1) rest
      | .floodWait s => AddEvent.slept s :: addUsersLoop (i + 1) rest
      | .otherError => addUsersLoop (i + 1) rest

/-- The `add_users_to_group` processing trace, starting at the first user. -/
def add_users_to_group (outcomes : List AddOutcome) : List AddEvent :=
  addUsersLoop 0 outcomes

/-- A JSON value, for modelling `json.loads` results. -/
inductive JVal
  | jnull
  | jbool (b : Bool)
  | jnum (n : Int)
  | jstr (s : List Nat)
  | jarr (xs : List JVal)
  | jobj (fields : List (List Nat × JVal))

/-- Python `dict.get` over a JSON object's fields. -/
def jlookup (k : List Nat) : List (List Nat × JVal) → Option JVal
  | [] => none
  | (k', v) :: rest => if k' = k then some v else jlookup k rest

/-- Python truthiness of a JSON value (how a non-boolean `valid` value would
be consumed). -/
def truthy : JVal → Bool
  | .jnull => false
  | .jbool b => b
  | .jnum n => n ≠ 0
  | .jstr s => !s.isEmpty
  | .jarr xs => !xs.isEmpty
  | .jobj f => !f.isEmpty

/-- Python `str.strip()` for the whitespace the code encounters (ASCII
whitespace). -/
def pyStrip (s : List Nat) : List Nat :=
  let ws : Nat → Bool := fun c => c ∈ [32, 9, 10, 13, 11, 12]
  ((s.dropWhile ws).reverse.dropWhile ws).reverse

/-- The markdown code-fence stripping of `validate_user_with_ai` (tools.py
lines 580-590): strip, drop a leading ```json, drop a leading ```, drop a
trailing ```, strip again. -/
def stripCodeFence (s0 : List Nat) : List Nat :=
  let s1 := pyStrip s0
  let s2 := if (S "```json").isPrefixOf s1 then s1.drop 7 else s1
  let s3 := if (S "```").isPrefixOf s2 then s2.drop 3 else s2
  let s4 := if (S "```").isSuffixOf s3 then s3.take (s3.length - 3) else s3
  pyStrip s4

/-- Outcome of the HTTP POST in `validate_user_with_ai`: a transport error or
timeout, or a response with a status code and — when the body yields one —
the extracted assistant content (`none` models a malformed response body,
whose access raises and falls into the outer handler). -/
inductive ApiResult
  | transportError
  | response (status : Nat) (content : Option (List Nat))

/-- The validator `TelegramTools.validate_user_with_ai` (tools.py lines 521-602) from the
HTTP outcome on: non-200 status, transport errors, body-extraction failures
and JSON-parse failures all yield `false`; a parsed JSON object yields its
`valid` value (default `false` when absent), any non-object parse result
raises into the outer handler and yields `false`.  `parse` stands for the
external `json.loads`. -/
def validate_user_with_ai (parse : List Nat → Option JVal) :
    ApiResult → Bool
  | .transportError => false
  | .response status content =>
    if status = 200 then
      match content with
      | none => false
      | some ai =>
        match parse (stripCodeFence (pyStrip ai)) with
        | none => false
        | some (.jobj fields) =>
          match jlookup (S "valid") fields with
          | none => false
          | some v => truthy v
        | some _ => false
    else false

/-- A concrete persisted record used to instantiate general theorems. -/
def sampleRow : CsvRow :=
  ⟨S "17", S "2024-01-01 00:00:00 UTC", S "1", S "user1", S "Alice A",
   S "hello", S "G", S "99", S "", S "", S ""⟩

/-- A second record with the same sender id but different sender fields. -/
def sampleRow2 : CsvRow :=
  ⟨S "18", S "2024-01-02 00:00:00 UTC", S "1", S "other", S "Bob B",
   S "casino", S "G", S "99", S "bio", S "casino", S ""⟩

/-- A concrete remote environment used to instantiate general theorems. -/
def sampleEnv : RemoteEnv := ⟨some [S "G1"], fun _ => some (S "a bio"), 10, 5⟩

/-- A concrete sender used to instantiate general theorems. -/
def sampleSender : Sender := ⟨7, S "user7", S "A", S "B", false, false⟩

/-- A concrete message list, descending in timestamp. -/
def sampleMsgs : List Message :=
  [⟨1, 25, S "hi", some sampleSender⟩, ⟨2, 18, S "casino news", some sampleSender⟩,
   ⟨3, 12, S "", none⟩, ⟨4, 9, S "late", some sampleSender⟩]

/-- C3 (code bug witness): tools.py normalization leaves a real newline
character (codepoint 10) intact, because it replaces the literal two-character
sequences backslash-n / backslash-r instead of line-break characters; the
fast_telegram_scraper.py normalization flattens the same input to a space. -/
theorem normalize_newline_bug :
    normalize_text_tools (S "a\nb") = S "a\nb" ∧
    10 ∈ normalize_text_tools (S "a\nb") ∧
    normalize_text_tools (S "a\\nb") = S "a b" ∧
    normalize_text_fast (S "a\nb") = S "a b" ∧
    normalize_text_fast (S "a\rb") = S "a b" := by
  decide

/-- C5: for every unit and positive count, the resolved window has
`start < end` with `end = now`, and `end - start` is exactly `count` days for
days, `7*count` days for weeks, and `30*count` days for months. -/
theorem resolve_window_spec (now : Int) (p : PeriodType) (q : Nat)
    (hq : 0 < q) :
    (resolve_window now p q).1 < (resolve_window now p q).2 ∧
    (resolve_window now p q).2 = now ∧
    (resolve_window now p q).2 - (resolve_window now p q).1 =
      86400 * (match p with
               | .days => (q : Int)
               | .weeks => 7 * (q : Int)
               | .months => 30 * (q : Int)) := by
  cases p <;> refine ⟨?_, rfl, ?_⟩ <;> simp only [resolve_window] <;> omega

/-- C5 witness: the two-week window at `now = 0`. -/
theorem resolve_window_spec_witness :
    (resolve_window 0 PeriodType.weeks 2).1 <
      (resolve_window 0 PeriodType.weeks 2).2 ∧
    (resolve_window 0 PeriodType.weeks 2).2 = 0 ∧
    (resolve_window 0 PeriodType.weeks 2).2 -
      (resolve_window 0 PeriodType.weeks 2).1 = 86400 * (7 * (2 : Int)) :=
  resolve_window_spec 0 PeriodType.weeks 2 (by decide)

/-- C7: in the bulk-add loop, a peer-flood error aborts the remaining batch
(the trace after it is independent of the remaining users and contains no
further attempts), a privacy-restricted error skips only the current target
and continues, and a flood-wait error sleeps for the error-specified seconds
and continues. -/
theorem add_users_policy :
    (∀ i rest, addUsersLoop i (AddOutcome.peerFlood :: rest) =
        [AddEvent.attempted i]) ∧
    (∀ i rest, addUsersLoop i (AddOutcome.privacyRestricted :: rest) =
        AddEvent.attempted i :: addUsersLoop (i + 1) rest) ∧
    (∀ i s rest, addUsersLoop i (AddOutcome.floodWait s :: rest) =
        AddEvent.attempted i :: AddEvent.slept s :: addUsersLoop (i + 1) rest) ∧
    (∀ i pre post, AddOutcome.peerFlood ∉ pre →
        addUsersLoop i (pre ++ AddOutcome.peerFlood :: post) =
          addUsersLoop i (pre ++ [AddOutcome.peerFlood])) := by
  refine ⟨fun i rest => rfl, fun i rest => rfl, fun i s rest => rfl, ?_⟩
  intro i pre post hpre
  induction pre generalizing i with
  | nil => rfl
  | cons o pre' ih =>
    have ho : o ≠ AddOutcome.peerFlood := fun h => hpre (h ▸ List.mem_cons_self o pre')
    have hpre' : AddOutcome.peerFlood ∉ pre' := fun h => hpre (List.mem_cons_of_mem o h)
    cases o with
    | ok =>
      simp only [List.cons_append, addUsersLoop, List.append_eq, ih (i + 1) hpre']
    | peerFlood => exact absurd rfl ho
    | privacyRestricted =>
      simp only [List.cons_append, addUsersLoop, List.append_eq, ih (i + 1) hpre']
    | floodWait s =>
      simp only [List.cons_append, addUsersLoop, List.append_eq, ih (i + 1) hpre']
    | otherError =>
      simp only [List.cons_append, addUsersLoop, List.append_eq, ih (i + 1) hpre']

/-- C7 witness: a batch with a success, then a peer-flood, then a remaining
user; the trace ends at the peer-flood attempt. -/
theorem add_users_policy_witness :
    AddOutcome.peerFlood ∉ [AddOutcome.ok] ∧
    addUsersLoop 0 ([AddOutcome.ok] ++ AddOutcome.peerFlood :: [AddOutcome.ok]) =
      addUsersLoop 0 ([AddOutcome.ok] ++ [AddOutcome.peerFlood]) :=
  ⟨by decide, add_users_policy.2.2.2 0 [AddOutcome.ok] [AddOutcome.ok] (by decide)⟩

/-- C9: neither user-info lookup ever computes keyword matches — the
`gaming_keywords` field of every enrichment returned by `get_user_fast_info`
and `get_user_detailed_info` is the empty string, for every sender, client
state, cache state and remote behaviour. -/
theorem enrichment_keywords_empty (env : RemoteEnv) (hasClient : Bool)
    (cg : Option (List (List Nat))) (u : Sender) :
    (get_user_fast_info env hasClient cg u).1.gaming_keywords = [] ∧
    (get_user_detailed_info env hasClient cg u).1.gaming_keywords = [] := by
  have h1 : (get_user_fast_info env hasClient cg u).1.gaming_keywords = [] := by
    unfold get_user_fast_info
    split_ifs <;> rfl
  refine ⟨h1, ?_⟩
  unfold get_user_detailed_info
  rcases hfast : get_user_fast_info env hasClient cg u with ⟨info, cg2⟩
  rw [hfast] at h1
  simp only
  split_ifs with h
  · split
    · split_ifs <;> simpa using h1
    · exact h1
  · exact h1

/-- C4: keyword matching is case-insensitive (the result on any text equals
the result on its lowercased form), the found terms form a subsequence of the
lexicon (lexicon order), the empty text yields the empty result, and the text
"I love CASINO games" matches both "casino" and "games". -/
theorem keyword_matcher_spec :
    (∀ t, find_message_keywords t = find_message_keywords (t.map pyToLower)) ∧
    (∀ t, List.Sublist (foundKeywords t) KEYWORDS) ∧
    find_message_keywords [] = [] ∧
    foundKeywords [] = [] ∧
    (S "casino") ∈ foundKeywords (S "I love CASINO games") ∧
    (S "games") ∈ foundKeywords (S "I love CASINO games") := by
  refine ⟨?_, fun t => List.filter_sublist _, rfl, by decide, by decide, by decide⟩
  intro t
  unfold find_message_keywords foundKeywords
  rcases ht : t with _ | ⟨c, cs⟩
  · rfl
  · rw [← ht]
    have hne : t ≠ [] := by simp [ht]
    have hne2 : t.map pyToLower ≠ [] := by simp [ht]
    simp only [hne, hne2, if_neg, map_pyToLower_idem]

/-- The fetch loop reads exactly the prefix of the source before the first
message dated strictly before `s`, and keeps the in-window messages of that
prefix. -/
theorem fetch_loop_eq_takeWhile_filter (s e : Int) (l : List Message) :
    fetch_loop s e l =
      (l.takeWhile fun m => decide (s ≤ m.date)).filter
        fun m => decide (s ≤ m.date ∧ m.date ≤ e) := by
  induction l with
  | nil => rfl
  | cons m ms ih =>
    by_cases h1 : m.date < s
    · have : ¬ s ≤ m.date := by omega
      simp [fetch_loop, h1, List.takeWhile_cons, this]
    · have hs : s ≤ m.date := by omega
      by_cases h2 : m.date ≤ e
      · simp [fetch_loop, h1, h2, List.takeWhile_cons, hs, List.filter_cons, ih]
      · simp [fetch_loop, h1, h2, List.takeWhile_cons, hs, List.filter_cons, ih]

/-- C1: over a descending-timestamp source the fetch loop collects exactly the
messages with `start ≤ t ≤ end`, in source order; independently of ordering it
consumes only the prefix ending at the first timestamp strictly before
`start`, a too-new message (`t > end`) is skipped without terminating, and a
too-old message (`t < start`) terminates the loop. -/
theorem fetch_loop_spec (s e : Int) (l : List Message)
    (hdesc : List.Pairwise (fun a b => b.date ≤ a.date) l) :
    fetch_loop s e l = l.filter (fun m => decide (s ≤ m.date ∧ m.date ≤ e)) ∧
    fetch_loop s e l =
      (l.takeWhile fun m => decide (s ≤ m.date)).filter
        (fun m => decide (s ≤ m.date ∧ m.date ≤ e)) ∧
    (∀ m ms, s ≤ m.date → e < m.date →
        fetch_loop s e (m :: ms) = fetch_loop s e ms) ∧
    (∀ m ms, m.date < s → fetch_loop s e (m :: ms) = []) := by
  refine ⟨?_, fetch_loop_eq_takeWhile_filter s e l, ?_, ?_⟩
  · induction l with
    | nil => rfl
    | cons m ms ih =>
      rcases List.pairwise_cons.mp hdesc with ⟨hm, hms⟩
      by_cases h1 : m.date < s
      · have hnot : ∀ x ∈ m :: ms, ¬ (decide (s ≤ x.date ∧ x.date ≤ e) = true) := by
          intro x hx
          rcases List.mem_cons.mp hx with rfl | hx'
          · simp; omega
          · have := hm x hx'
            simp; omega
        rw [List.filter_eq_nil_iff.mpr hnot]
        simp [fetch_loop, h1]
      · have hs : s ≤ m.date := by omega
        by_cases h2 : m.date ≤ e
        · simp [fetch_loop, h1, h2, List.filter_cons, hs, ih hms]
        · simp [fetch_loop, h1, h2, List.filter_cons, hs, ih hms]
  · intro m ms hms hm
    have h1 : ¬ m.date < s := by omega
    have h2 : ¬ m.date ≤ e := by omega
    simp [fetch_loop, h1, h2]
  · intro m ms hm
    simp [fetch_loop, hm]

/-- C1 witness: a concrete descending source with window [10, 20]; the message
dated 25 is skipped, those dated 18 and 12 are kept, and the loop stops at 9. -/
theorem fetch_loop_spec_witness :
    List.Pairwise (fun a b => b.date ≤ a.date) sampleMsgs ∧
    fetch_loop 10 20 sampleMsgs =
      sampleMsgs.filter (fun m => decide (10 ≤ m.date ∧ m.date ≤ 20)) :=
  ⟨by decide, (fetch_loop_spec 10 20 sampleMsgs (by decide)).1⟩

/-- C8: the AI validation returns `false` on every failure — transport
error/timeout, non-200 status, body-extraction failure, content that does not
parse as JSON — and when the (fence-stripped) content parses to a JSON object
it returns the boolean of the `valid` key, `false` when the key is absent. -/
theorem validate_user_spec :
    (∀ parse, validate_user_with_ai parse ApiResult.transportError = false) ∧
    (∀ parse status c, status ≠ 200 →
        validate_user_with_ai parse (ApiResult.response status c) = false) ∧
    (∀ parse, validate_user_with_ai parse (ApiResult.response 200 none) = false) ∧
    (∀ parse ai, parse (stripCodeFence (pyStrip ai)) = none →
        validate_user_with_ai parse (ApiResult.response 200 (some ai)) = false) ∧
    (∀ parse ai fields b,
        parse (stripCodeFence (pyStrip ai)) = some (JVal.jobj fields) →
        jlookup (S "valid") fields = some (JVal.jbool b) →
        validate_user_with_ai parse (ApiResult.response 200 (some ai)) = b) ∧
    (∀ parse ai fields,
        parse (stripCodeFence (pyStrip ai)) = some (JVal.jobj fields) →
        jlookup (S "valid") fields = none →
        validate_user_with_ai parse (ApiResult.response 200 (some ai)) = false) := by
  refine ⟨fun parse => rfl, ?_, fun parse => rfl, ?_, ?_, ?_⟩
  · intro parse status c hst
    simp [validate_user_with_ai, hst]
  · intro parse ai hp
    simp [validate_user_with_ai, hp]
  · intro parse ai fields b hp hv
    simp [validate_user_with_ai, hp, hv, truthy]
  · intro parse ai fields hp hv
    simp [validate_user_with_ai, hp, hv]

/-- C8 witness: a concrete parse function and concrete responses exercising
the success case, the non-200 case, and the unparseable case. -/
theorem validate_user_spec_witness :
    validate_user_with_ai
        (fun t => if t = S "ok" then some (JVal.jobj [(S "valid", JVal.jbool true)]) else none)
        (ApiResult.response 200 (some (S "```json ok```"))) = true ∧
    validate_user_with_ai
        (fun t => if t = S "ok" then some (JVal.jobj [(S "valid", JVal.jbool true)]) else none)
        (ApiResult.response 404 (some (S "ok"))) = false ∧
    validate_user_with_ai
        (fun t => if t = S "ok" then some (JVal.jobj [(S "valid", JVal.jbool true)]) else none)
        (ApiResult.response 200 (some (S "garbage"))) = false :=
  ⟨validate_user_spec.2.2.2.2.1 _ (S "```json ok```")
      [(S "valid", JVal.jbool true)] true (by rfl) (by rfl),
   validate_user_spec.2.1 _ 404 (some (S "ok")) (by decide),
   validate_user_spec.2.2.2.1 _ (S "garbage") (by rfl)⟩

theorem lookupCache_append (sid : Nat) (l l' : List (Nat × UserInfo)) :
    lookupCache sid (l ++ l') =
      match lookupCache sid l with
      | some v => some v
      | none => lookupCache sid l' := by
  induction l with
  | nil => rfl
  | cons kv rest ih =>
    rcases kv with ⟨k, v⟩
    by_cases h : k = sid <;> simp [lookupCache, h, ih]

theorem processMessage_cache_preserve (fast : Bool) (env : RemoteEnv)
    (st : PipeState) (m : Message) (sid : Nat) (v : UserInfo)
    (h : lookupCache sid st.users_cache = some v) :
    lookupCache sid (processMessage fast env st m).users_cache = some v := by
  unfold processMessage
  split
  · exact h
  · split
    · exact h
    · split_ifs <;> simp [lookupCache_append, h]

theorem foldl_cache_preserve (fast : Bool) (env : RemoteEnv)
    (msgs : List Message) :
    ∀ (st : PipeState) (sid : Nat) (v : UserInfo),
      lookupCache sid st.users_cache = some v →
      lookupCache sid
          ((msgs.foldl (processMessage fast env) st)).users_cache = some v := by
  induction msgs with
  | nil => intro st sid v h; exact h
  | cons m ms ih =>
    intro st sid v h
    exact ih _ sid v (processMessage_cache_preserve fast env st m sid v h)

/-- Invariant tying the detailed-call log to the cache: every logged sender is
cached, and no sender is logged twice. -/
def CallsInv (st : PipeState) : Prop :=
  ∀ sid, st.detailed_calls.count sid ≤ 1 ∧
    (sid ∈ st.detailed_calls → (lookupCache sid st.users_cache).isSome)

theorem isSome_lookupCache_append (sid : Nat) (l l' : List (Nat × UserInfo))
    (h : (lookupCache sid l).isSome) : (lookupCache sid (l ++ l')).isSome := by
  rcases hs : lookupCache sid l with _ | v
  · rw [hs] at h; simp at h
  · simp [lookupCache_append, hs]

theorem processMessage_calls_inv (fast : Bool) (env : RemoteEnv)
    (st : PipeState) (m : Message) (hinv : CallsInv st) :
    CallsInv (processMessage fast env st m) := by
  intro sid
  obtain ⟨mid, mdate, mtext, msender⟩ := m
  unfold processMessage
  cases msender with
  | none => exact hinv sid
  | some u =>
    dsimp only
    cases hc : lookupCache u.id st.users_cache with
    | some info => exact hinv sid
    | none =>
      dsimp only
      split_ifs with hf
      · exact ⟨(hinv sid).1,
          fun hmem => isSome_lookupCache_append sid _ _ ((hinv sid).2 hmem)⟩
      · by_cases hsid : sid = u.id
        · have hnot : u.id ∉ st.detailed_calls := by
            intro hmem
            have h2 := (hinv u.id).2 hmem
            rw [hc] at h2
            simp at h2
          refine ⟨?_, fun _ => ?_⟩
          · have h0 : st.detailed_calls.count u.id = 0 :=
              List.count_eq_zero.mpr hnot
            have hone : List.count u.id ([u.id] : List Nat) = 1 := by simp
            rw [hsid, List.count_append, h0, hone]
          · rw [hsid]
            simp [lookupCache_append, hc, lookupCache]
        · refine ⟨?_, fun hmem => ?_⟩
          · have hz : List.count sid ([u.id] : List Nat) = 0 := by
              rw [List.count_eq_zero]
              simp only [List.mem_singleton]
              exact hsid
            rw [List.count_append, hz]
            simpa using (hinv sid).1
          · have hmem2 : sid ∈ st.detailed_calls := by
              rcases List.mem_append.mp hmem with h | h
              · exact h
              · simp at h
                exact absurd h hsid
            exact isSome_lookupCache_append sid _ _ ((hinv sid).2 hmem2)

theorem foldl_calls_inv (fast : Bool) (env : RemoteEnv) (msgs : List Message) :
    ∀ (st : PipeState), CallsInv st →
      CallsInv (msgs.foldl (processMessage fast env) st) := by
  induction msgs with
  | nil => intro st h; exact h
  | cons m ms ih =>
    intro st h
    exact ih _ (processMessage_calls_inv fast env st m h)

/-- C2: per run, each sender identity triggers at most one detailed-profile
remote request (the call log counts every `GetFullUserRequest` issued by the
pipeline), and a cached enrichment is never overwritten: once the cache maps a
sender to a value, processing any further messages leaves that entry intact,
so later messages from the same sender reuse it with no additional remote
call. -/
theorem sender_cache_spec :
    (∀ fast env msgs sid,
        ((runPipeline fast env msgs).detailed_calls.count sid) ≤ 1) ∧
    (∀ fast env (st : PipeState) (msgs : List Message) sid v,
        lookupCache sid st.users_cache = some v →
        lookupCache sid
            ((msgs.foldl (processMessage fast env) st)).users_cache = some v) := by
  constructor
  · intro fast env msgs sid
    have hinit : CallsInv initState := by
      intro sid2
      refine ⟨by simp [initState], by simp [initState]⟩
    exact (foldl_calls_inv fast env msgs initState hinit sid).1
  · intro fast env st msgs sid v h
    exact foldl_cache_preserve fast env msgs st sid v h

/-- C2 witness: a pre-seeded cache entry for sender 7 survives processing the
sample messages, and the sample run issues at most one detailed call for
sender 7. -/
theorem sender_cache_spec_witness :
    ((runPipeline false sampleEnv sampleMsgs).detailed_calls.count 7) ≤ 1 ∧
    lookupCache 7 (PipeState.users_cache ⟨[(7, ⟨[], [], []⟩)], none, [], []⟩) =
      some ⟨[], [], []⟩ ∧
    lookupCache 7
        ((sampleMsgs.foldl (processMessage false sampleEnv)
            ⟨[(7, ⟨[], [], []⟩)], none, [], []⟩)).users_cache =
      some ⟨[], [], []⟩ :=
  ⟨sender_cache_spec.1 false sampleEnv sampleMsgs 7, by rfl,
   sender_cache_spec.2 false sampleEnv ⟨[(7, ⟨[], [], []⟩)], none, [], []⟩
     sampleMsgs 7 ⟨[], [], []⟩ (by rfl)⟩

theorem lookupUser_append (sid : List Nat) (l l' : List (List Nat × UserData)) :
    lookupUser sid (l ++ l') =
      match lookupUser sid l with
      | some v => some v
      | none => lookupUser sid l' := by
  induction l with
  | nil => rfl
  | cons kv rest ih =>
    rcases kv with ⟨k, v⟩
    by_cases h : k = sid <;> simp [lookupUser, h, ih]

theorem lookupUser_appendMsg_self (sid : List Nat) (m : MessageData)
    (l : List (List Nat × UserData)) :
    lookupUser sid (appendMsg sid m l) =
      (lookupUser sid l).map
        (fun u => { u with messages := u.messages ++ [m] }) := by
  induction l with
  | nil => rfl
  | cons kv rest ih =>
    rcases kv with ⟨k, v⟩
    by_cases h : k = sid <;> simp [appendMsg, lookupUser, h, ih]

theorem lookupUser_appendMsg_ne (sid k : List Nat) (hne : sid ≠ k)
    (m : MessageData) (l : List (List Nat × UserData)) :
    lookupUser sid (appendMsg k m l) = lookupUser sid l := by
  induction l with
  | nil => rfl
  | cons kv rest ih =>
    rcases kv with ⟨k2, v⟩
    have hks : ¬ k = sid := fun hh => hne hh.symm
    by_cases h : k2 = k
    · subst h
      simp [appendMsg, lookupUser, hks]
    · by_cases h2 : k2 = sid <;> simp [appendMsg, lookupUser, h, h2, ih, hne]

theorem process_foldl_lookup (sid : List Nat) (hsid : sid ≠ []) :
    ∀ (rows : List CsvRow) (acc : List (List Nat × UserData)),
      lookupUser sid (rows.foldl processRow acc) =
        match lookupUser sid acc with
        | some u => some { u with messages :=
            u.messages ++
              ((rows.filter (fun r => decide (r.sender_id = sid))).map rowMessage) }
        | none =>
          ((rows.filter (fun r => decide (r.sender_id = sid))).head?).map
            (fun r0 => { seedUser r0 with messages :=
              (rows.filter (fun r => decide (r.sender_id = sid))).map rowMessage }) := by
  intro rows
  induction rows with
  | nil =>
    intro acc
    rcases h : lookupUser sid acc with _ | u
    · simp [h]
    · simp [h]
  | cons r rest ih =>
    intro acc
    simp only [List.foldl_cons]
    by_cases h0 : r.sender_id = []
    · have hskip : processRow acc r = acc := by simp [processRow, h0]
      have hfil : decide (r.sender_id = sid) = false := by
        simp only [decide_eq_false_iff_not]
        intro h
        exact hsid (h ▸ h0)
      rw [hskip, ih acc]
      simp [List.filter_cons, hfil]
    · by_cases h1 : r.sender_id = sid
      · have hfil : decide (r.sender_id = sid) = true := by simp [h1]
        rcases h2 : lookupUser sid acc with _ | u
        · have hn : lookupUser r.sender_id acc = none := by rw [h1, h2]
          have hacc : processRow acc r =
              appendMsg sid (rowMessage r) (acc ++ [(sid, seedUser r)]) := by
            simp [processRow, h1, hsid, h2]
          have hlk : lookupUser sid (processRow acc r) =
              some { seedUser r with messages := [rowMessage r] } := by
            rw [hacc, lookupUser_appendMsg_self, lookupUser_append, h2]
            simp [lookupUser, seedUser]
          rw [ih (processRow acc r), hlk]
          simp [List.filter_cons, hfil, h2, seedUser]
        · have hsm : lookupUser r.sender_id acc = some u := by rw [h1, h2]
          have hacc : processRow acc r = appendMsg sid (rowMessage r) acc := by
            simp [processRow, h1, hsid, h2]
          have hlk : lookupUser sid (processRow acc r) =
              some { u with messages := u.messages ++ [rowMessage r] } := by
            rw [hacc, lookupUser_appendMsg_self, h2]
            rfl
          rw [ih (processRow acc r), hlk]
          obtain ⟨a1, a2, a3, a4, a5, a6, a7, amsgs⟩ := u
          simp [List.filter_cons, hfil, h2]
      · have hfil : decide (r.sender_id = sid) = false := by simp [h1]
        have hne : sid ≠ r.sender_id := fun h => h1 h.symm
        have hacc : lookupUser sid (processRow acc r) = lookupUser sid acc := by
          unfold processRow
          rw [if_neg h0]
          by_cases h3 : (lookupUser r.sender_id acc).isSome
          · simp only [h3, if_pos]
            exact lookupUser_appendMsg_ne sid r.sender_id hne (rowMessage r) acc
          · simp only [h3, if_neg, Bool.false_eq_true, not_false_eq_true]
            rw [lookupUser_appendMsg_ne sid r.sender_id hne, lookupUser_append]
            rcases h4 : lookupUser sid acc with _ | u
            · simp [lookupUser, h1]
            · rfl
        rw [ih (processRow acc r), hacc]
        simp [List.filter_cons, hfil]

theorem process_lookup_empty (rows : List CsvRow) :
    ∀ acc, lookupUser [] acc = none →
      lookupUser [] (rows.foldl processRow acc) = none := by
  induction rows with
  | nil => intro acc h; exact h
  | cons r rest ih =>
    intro acc h
    simp only [List.foldl_cons]
    apply ih
    by_cases h0 : r.sender_id = []
    · simpa [processRow, h0] using h
    · have hne : ([] : List Nat) ≠ r.sender_id := fun hh => h0 hh.symm
      rcases h3 : lookupUser r.sender_id acc with _ | u
      · have heq : processRow acc r =
            appendMsg r.sender_id (rowMessage r)
              (acc ++ [(r.sender_id, seedUser r)]) := by
          simp [processRow, h0, h3]
        rw [heq, lookupUser_appendMsg_ne _ _ hne, lookupUser_append, h]
        simp [lookupUser, h0]
      · have heq : processRow acc r =
            appendMsg r.sender_id (rowMessage r) acc := by
          simp [processRow, h0, h3]
        rw [heq, lookupUser_appendMsg_ne _ _ hne, h]

/-- C6: aggregation skips every record whose sender id is empty (the empty id
is never a key); for each non-empty sender id, the aggregate exists exactly
when some record carries that id, its sender-level fields are seeded from the
first such record only, and its message list is exactly one sub-record per
matching record, in input order.  `process_csv_to_json` is a plain function of
its input. -/
theorem process_csv_spec :
    (∀ rows : List CsvRow, lookupUser [] (process_csv_to_json rows) = none) ∧
    (∀ (rows : List CsvRow) (sid : List Nat), sid ≠ [] →
        lookupUser sid (process_csv_to_json rows) =
          ((rows.filter (fun r => decide (r.sender_id = sid))).head?).map
            (fun r0 => { seedUser r0 with messages :=
              (rows.filter
                (fun r => decide (r.sender_id = sid))).map rowMessage })) := by
  constructor
  · intro rows
    exact process_lookup_empty rows [] rfl
  · intro rows sid hsid
    exact process_foldl_lookup sid hsid rows []

/-- C6 witness: two records with sender id "1"; the aggregate is seeded from
the first and carries both message sub-records in order. -/
theorem process_csv_spec_witness :
    (S "1") ≠ [] ∧
    lookupUser (S "1") (process_csv_to_json [sampleRow, sampleRow2]) =
      ((([sampleRow, sampleRow2].filter
          (fun r => decide (r.sender_id = S "1"))).head?).map
        (fun r0 => { seedUser r0 with messages :=
          ([sampleRow, sampleRow2].filter
            (fun r => decide (r.sender_id = S "1"))).map rowMessage })) :=
  ⟨by decide, process_csv_spec.2 [sampleRow, sampleRow2] (S "1") (by decide)⟩

theorem withAt_spec (v : List Nat) :
    withAt v = [] ∨ (S "@").isPrefixOf (withAt v) := by
  unfold withAt
  split_ifs with h
  · right
    have h64 : S "@" = [64] := rfl
    rw [h64]
    simp [List.isPrefixOf]
  · rcases not_and_or.mp h with h1 | h2
    · left
      simpa using h1
    · right
      simpa using h2

theorem mkRow_username (m : Message) (info : UserInfo) :
    (mkRow m info).sender_username = [] ∨
      (S "@").isPrefixOf (mkRow m info).sender_username := by
  obtain ⟨mid, mdate, mtext, msender⟩ := m
  cases msender with
  | none => left; rfl
  | some s =>
    dsimp only [mkRow]
    split_ifs with h
    · exact withAt_spec s.username
    · left; rfl

theorem runPipeline_rows_username (fast : Bool) (env : RemoteEnv) :
    ∀ (msgs : List Message) (st : PipeState),
      (∀ r ∈ st.rows,
        r.sender_username = [] ∨ (S "@").isPrefixOf r.sender_username) →
      ∀ r ∈ (msgs.foldl (processMessage fast env) st).rows,
        r.sender_username = [] ∨ (S "@").isPrefixOf r.sender_username := by
  intro msgs
  induction msgs with
  | nil => intro st h; exact h
  | cons m ms ih =>
    intro st h
    apply ih
    intro r hr
    have hrows : ∃ info,
        (processMessage fast env st m).rows = st.rows ++ [mkRow m info] := by
      unfold processMessage
      obtain ⟨mid, mdate, mtext, msender⟩ := m
      cases msender with
      | none => exact ⟨⟨[], [], []⟩, rfl⟩
      | some u =>
        dsimp only
        rcases hc : lookupCache u.id st.users_cache with _ | info
        · dsimp only
          by_cases hf : (fast = true ∨ u.bot = true ∨ u.isChannelOrChat = true)
          · rw [if_pos hf]
            exact ⟨_, rfl⟩
          · rw [if_neg hf]
            exact ⟨_, rfl⟩
        · exact ⟨info, rfl⟩
    obtain ⟨info, heq⟩ := hrows
    rw [heq] at hr
    rcases List.mem_append.mp hr with h1 | h1
    · exact h r h1
    · have : r = mkRow m info := by simpa using h1
      rw [this]
      exact mkRow_username m info

/-- C10: every row written by the tools.py message export, and every aggregate
seeded by `process_csv_to_json`, carries a `sender_username` that is either
empty or begins with the character `@`. -/
theorem username_at_spec :
    (∀ fast env msgs r, r ∈ (runPipeline fast env msgs).rows →
        r.sender_username = [] ∨ (S "@").isPrefixOf r.sender_username) ∧
    (∀ (rows : List CsvRow) (sid : List Nat) (u : UserData),
        lookupUser sid (process_csv_to_json rows) = some u →
        u.sender_username = [] ∨ (S "@").isPrefixOf u.sender_username) := by
  constructor
  · intro fast env msgs r hr
    exact runPipeline_rows_username fast env msgs initState
      (by simp [initState]) r hr
  · intro rows sid u hu
    by_cases hsid : sid = []
    · unfold process_csv_to_json at hu
      rw [hsid, process_lookup_empty rows [] rfl] at hu
      exact absurd hu (by simp)
    · have hc := process_foldl_lookup sid hsid rows []
      simp only [lookupUser] at hc
      unfold process_csv_to_json at hu
      rw [hc] at hu
      rcases Option.map_eq_some'.mp hu with ⟨r0, hr0, hueq⟩
      rw [← hueq]
      exact withAt_spec r0.sender_username

/-- C10 witness: the first row of a concrete fast-mode run carries the
`@`-prefixed username, and the concrete aggregate for sender "1" does too. -/
theorem username_at_spec_witness :
    ((⟨1, 25, some 7, S "@user7", S "A B", S "hi", [], [], S "G1"⟩ :
        OutRow).sender_username = [] ∨
      (S "@").isPrefixOf
        (⟨1, 25, some 7, S "@user7", S "A B", S "hi", [], [], S "G1"⟩ :
          OutRow).sender_username) ∧
    (({ seedUser sampleRow with
          messages := [rowMessage sampleRow, rowMessage sampleRow2] } :
        UserData).sender_username = [] ∨
      (S "@").isPrefixOf
        ({ seedUser sampleRow with
            messages := [rowMessage sampleRow, rowMessage sampleRow2] } :
          UserData).sender_username) :=
  ⟨username_at_spec.1 true sampleEnv sampleMsgs _ (by decide),
   username_at_spec.2 [sampleRow, sampleRow2] (S "1") _ (by decide)⟩
